import Mathlib

/-!
Shallow embedding of `src/game.js` (a provably-fair dice game): the `Dice`
data model, `DiceParser.parseDice`, the `FairRandomGenerator` commitment
component, the `ProbabilityCalculator` engine, and the core computation of
`Game.performFairRoll`.  JavaScript numbers arising here are integers
(faces, counters) or exact small rationals (probabilities); division by
zero, which yields the non-finite NaN/Infinity in JavaScript, is modelled
by `Option.none`.  Reference identity of JavaScript objects (`===` on
`Dice` instances) is modelled by a stable numeric `id` carried by each die.
-/

/-- A die: `class Dice` of `game.js` (lines 5-21).  `faces` is the array
passed to the constructor; `id` models the JavaScript object's reference
identity (two entries of a pool alias the same object iff their ids are
equal). -/
structure Dice where
  id : Nat
  faces : List Int
deriving DecidableEq, Repr

/-- `Dice.getFaces` (game.js line 10). -/
def Dice.getFaces (d : Dice) : List Int := d.faces

/-- `Dice.getFaceCount` (game.js line 14). -/
def Dice.getFaceCount (d : Dice) : Nat := d.faces.length

/-- JavaScript strings are modelled as their character sequences, so that
every parsing step stays kernel-computable.  `arg.split(",")`, splitting on
every comma and keeping empty chunks (`"".split(",")` is `[""]`). -/
def splitOnCommaAux : List Char → List Char → List (List Char)
  | [], acc => [acc.reverse]
  | c :: rest, acc =>
    if c = ',' then acc.reverse :: splitOnCommaAux rest []
    else splitOnCommaAux rest (c :: acc)

/-- `arg.split(",")` of game.js line 33. -/
def splitOnComma (s : List Char) : List (List Char) := splitOnCommaAux s []

/-- JavaScript `String.prototype.trim`: strip whitespace from both ends. -/
def trimChars (s : List Char) : List Char :=
  ((s.dropWhile Char.isWhitespace).reverse.dropWhile Char.isWhitespace).reverse

/-- Decimal-digit run to a natural number, used by the `parseInt` model. -/
def digitsVal (s : List Char) : Nat :=
  s.foldl (fun n c => 10 * n + (c.toNat - 48)) 0

/-- JavaScript `parseInt(s)` restricted to the decimal path: strip
whitespace, read an optional sign, then the longest leading run of decimal
digits, ignoring anything after; `none` models `NaN` (no digits).  The
`0x`-prefixed hexadecimal mode of `parseInt` is not modelled; no claim
depends on it. -/
def parseIntJs (s : List Char) : Option Int :=
  let t := trimChars s
  let (sign, rest) :=
    if t.head? = some '-' then ((-1 : Int), t.tail)
    else if t.head? = some '+' then ((1 : Int), t.tail)
    else ((1 : Int), t)
  let digits := rest.takeWhile Char.isDigit
  if digits.isEmpty then none else some (sign * (digitsVal digits : Int))

/-- One iteration of the `for (const arg of args)` body of
`DiceParser.parseDice` (game.js lines 32-44): split the argument on commas,
parse each piece with `parseInt(face.trim())`, reject `NaN`, reject an
empty face list.  `i` is the position of the argument, used as the die's
identity. -/
def DiceParser.parseDie (i : Nat) (arg : List Char) : Except (List Char) Dice :=
  match (splitOnComma arg).mapM
      (fun face =>
        match parseIntJs (trimChars face) with
        | none => Except.error ("Invalid Die face: ".toList ++ face)
        | some num => Except.ok num) with
  | Except.error e => Except.error e
  | Except.ok faces =>
    if faces.length < 1 then Except.error "A die must have at least one face".toList
    else Except.ok ⟨i, faces⟩

/-- `DiceParser.parseDice` (game.js lines 24-46): at least three arguments,
then one die per argument. -/
def DiceParser.parseDice (args : List (List Char)) : Except (List Char) (List Dice) :=
  if args.length < 3 then
    Except.error "At least 3 Dice are required. Example: node game.js 1,2,3 4,5,6 7,8,9".toList
  else
    args.enum.mapM (fun p => DiceParser.parseDie p.1 p.2)

/-- A keyed hash function: `crypto.createHmac("sha3-256", key)` applied to a
message, as bytes.  The game's claims depend only on the hash being a
deterministic function of `(key, message)`, so it is a parameter of the
embedding. -/
def HashFn : Type := List Nat → List Nat → List Nat

/-- `buffer.writeUInt32BE(x)` on a 4-byte buffer (game.js lines 59-60): the
big-endian 4-byte encoding of `x`. -/
def encodeBE32 (x : Nat) : List Nat :=
  [x / 2 ^ 24 % 256, x / 2 ^ 16 % 256, x / 2 ^ 8 % 256, x % 256]

/-- The state a `new FairRandomGenerator(rangeSize)` holds after its
constructor ran (game.js lines 50-55): the range size, the 32-byte HMAC
key, the secret `x`, and the digest stored by `this.hmac =
this.computeHMAC()`. -/
structure FairRandomGenerator where
  rangeSize : Nat
  key : List Nat
  x : Nat
  hmac : List Nat

/-- `computeHMAC` (game.js lines 57-63): hash the 4-byte big-endian
encoding of `x` under `key`. -/
def FairRandomGenerator.computeHMAC (H : HashFn) (s : FairRandomGenerator) : List Nat :=
  H s.key (encodeBE32 s.x)

/-- The `FairRandomGenerator` constructor on a non-negative range (game.js
lines 50-55).  `key` stands for the bytes drawn by `crypto.randomBytes(32)`
and `draw` for the entropy behind `crypto.randomInt(0, rangeSize + 1)`,
which yields a value in `[0, rangeSize]` — modelled as `draw % (rangeSize +
1)`. -/
def FairRandomGenerator.make (H : HashFn) (rangeSize : Nat) (key : List Nat)
    (draw : Nat) : FairRandomGenerator :=
  let x := draw % (rangeSize + 1)
  { rangeSize := rangeSize, key := key, x := x,
    hmac := H key (encodeBE32 x) }

/-- `getHMAC` (game.js line 65): returns the stored digest. -/
def FairRandomGenerator.getHMAC (s : FairRandomGenerator) : List Nat := s.hmac

/-- `computeResult(y)` (game.js lines 69-71): `(this.x + y) % (this.rangeSize
+ 1)`.  JavaScript `%` is the truncated remainder, `Int.tmod`. -/
def FairRandomGenerator.computeResult (s : FairRandomGenerator) (y : Int) : Int :=
  Int.tmod ((s.x : Int) + y) ((s.rangeSize : Int) + 1)

/-- `getX` (game.js line 73). -/
def FairRandomGenerator.getX (s : FairRandomGenerator) : Nat := s.x

/-- `getKey` (game.js line 77): the key bytes (their hexadecimal text
encoding is display-only and lossless, so the bytes themselves are
returned). -/
def FairRandomGenerator.getKey (s : FairRandomGenerator) : List Nat := s.key

/-- Entropy-consuming steps of the constructor, in source order:
`crypto.randomBytes(32)` (game.js line 52) then `crypto.randomInt` (line
53). -/
inductive EntropyStep where
  | genKey
  | genSecret
deriving DecidableEq, Repr

/-- The error `crypto.randomInt(min, max)` raises when `max` is not greater
than `min` (Node `ERR_OUT_OF_RANGE`). -/
inductive CryptoError where
  | randomIntMaxNotGreaterThanMin
deriving DecidableEq, Repr

/-- The full constructor on an arbitrary integer range (game.js lines
50-55), keeping the trace of entropy-consuming steps: line 52 draws the key
unconditionally; line 53 calls `crypto.randomInt(0, rangeSize + 1)`, which
raises `ERR_OUT_OF_RANGE` when `rangeSize + 1 ≤ 0` — after the key was
already drawn. -/
def FairRandomGenerator.init (H : HashFn) (rangeSize : Int) (key : List Nat)
    (draw : Nat) : List EntropyStep × Except CryptoError FairRandomGenerator :=
  if rangeSize + 1 ≤ 0 then
    ([EntropyStep.genKey], Except.error CryptoError.randomIntMaxNotGreaterThanMin)
  else
    ([EntropyStep.genKey, EntropyStep.genSecret],
      Except.ok (FairRandomGenerator.make H rangeSize.toNat key draw))

/-- The nested counting loop of `calculateWinProbability` (game.js lines
84-90): for each face of die 1, for each face of die 2, count the pairs
where die 1's face is strictly greater. -/
def countGreater (faces1 faces2 : List Int) : Nat :=
  faces1.foldl
    (fun acc fa =>
      faces2.foldl (fun acc2 fb => if fa > fb then acc2 + 1 else acc2) acc)
    0

/-- `ProbabilityCalculator.calculateWinProbability` (game.js lines 83-92):
the count of strictly-greater face pairs over the total number of face
pairs.  The JavaScript division of these small integers is exact, so it is
modelled in `ℚ`. -/
def ProbabilityCalculator.calculateWinProbability (die1 die2 : Dice) : ℚ :=
  (countGreater die1.getFaces die2.getFaces : ℚ) /
    ((die1.getFaceCount * die2.getFaceCount : Nat) : ℚ)

/-- JavaScript number division when the denominator may be the integer
zero: `none` models the non-finite result (`NaN` or `±Infinity`) of
dividing by zero. -/
def jsDiv (a b : ℚ) : Option ℚ :=
  if b = 0 then none else some (a / b)

/-- The accumulation loop of `averageWinProbability` (game.js lines
95-100): skip pool members identical (`===`) to `die`, add the pairwise
win probability of the rest. -/
def averageTotal (die : Dice) (dice : List Dice) : ℚ :=
  dice.foldl
    (fun total eachDie =>
      if die.id = eachDie.id then total
      else total + ProbabilityCalculator.calculateWinProbability die eachDie)
    0

/-- `ProbabilityCalculator.averageWinProbability` (game.js lines 94-103):
the loop total divided by `dice.length - 1`, with no pool-size check. -/
def ProbabilityCalculator.averageWinProbability (die : Dice) (dice : List Dice) :
    Option ℚ :=
  jsDiv (averageTotal die dice) ((dice.length : ℚ) - 1)

/-- The pure computation of `Game.performFairRoll(max)` (game.js lines
332-379), I/O stripped: build a `FairRandomGenerator` over `[0, max]` and
combine the computer's secret with the user's validated contribution `y`.
The prompt loop only lets `y ∈ {0, ..., max}` through (lines 341-365). -/
def Game.performFairRoll (H : HashFn) (max : Nat) (key : List Nat) (draw : Nat)
    (y : Int) : Int :=
  (FairRandomGenerator.make H max key draw).computeResult y

/-- The number of face pairs `(fa, fb)` with `fa` from `faces1`, `fb` from
`faces2` and `fa > fb` — the spec's definition of the win count, stated
over the literal list of pairs. -/
def pairCountGt (faces1 faces2 : List Int) : Nat :=
  ((faces1.product faces2).filter (fun p => decide (p.2 < p.1))).length

/-- The number of face pairs whose values are equal (ties). -/
def pairCountEq (faces1 faces2 : List Int) : Nat :=
  ((faces1.product faces2).filter (fun p => decide (p.1 = p.2))).length

/-- The spec's `averageWinProbability`: the arithmetic mean of the pairwise
win probabilities against every pool member not identical to `die`. -/
def specAverageWinProbability (die : Dice) (dice : List Dice) : ℚ :=
  ((dice.filter (fun e => decide (e.id ≠ die.id))).map
      (fun e => ProbabilityCalculator.calculateWinProbability die e)).sum /
    (((dice.filter (fun e => decide (e.id ≠ die.id))).length : Nat) : ℚ)

/-- A trivial concrete hash function, used to instantiate `HashFn` in
witnesses and counterexamples. -/
def constHash : HashFn := fun _ _ => []

/-! ### Counting lemmas for the probability engine -/

/-- The inner loop of `countGreater` adds, to its accumulator, the number
of faces of die 2 that `fa` strictly exceeds. -/
theorem countGreater_inner (fa : Int) :
    ∀ (l2 : List Int) (acc : Nat),
      l2.foldl (fun acc2 fb => if fa > fb then acc2 + 1 else acc2) acc
        = acc + l2.countP (fun fb => decide (fb < fa)) := by
  intro l2
  induction l2 with
  | nil => intro acc; simp
  | cons fb t ih =>
    intro acc
    by_cases h : fb < fa
    · simp [List.foldl_cons, List.countP_cons, h, ih]
      omega
    · simp [List.foldl_cons, List.countP_cons, h, ih]

/-- `countGreater` as a sum over the faces of die 1. -/
theorem countGreater_eq_sum (l1 l2 : List Int) :
    countGreater l1 l2
      = (l1.map (fun fa => l2.countP (fun fb => decide (fb < fa)))).sum := by
  unfold countGreater
  suffices h : ∀ acc : Nat,
      l1.foldl (fun acc fa =>
        l2.foldl (fun acc2 fb => if fa > fb then acc2 + 1 else acc2) acc) acc
        = acc + (l1.map (fun fa => l2.countP (fun fb => decide (fb < fa)))).sum by
    simpa using h 0
  induction l1 with
  | nil => intro acc; simp
  | cons fa t ih =>
    intro acc
    rw [List.foldl_cons, ih, countGreater_inner fa l2 acc, List.map_cons,
      List.sum_cons]
    omega

/-- Counting over the pair list is a sum of per-row counts. -/
theorem countP_product {α β : Type} (l1 : List α) (l2 : List β)
    (f : α × β → Bool) :
    (l1.product l2).countP f
      = (l1.map (fun x => l2.countP (fun y => f (x, y)))).sum := by
  induction l1 with
  | nil => simp [List.product]
  | cons x t ih =>
    have hprod : (x :: t).product l2 = (l2.map fun b => (x, b)) ++ t.product l2 :=
      List.product_cons x t l2
    rw [hprod, List.countP_append, List.countP_map, List.map_cons,
      List.sum_cons, ih]
    rfl

/-- Summing a pointwise sum of two maps splits. -/
theorem sum_map_add {α : Type} (l : List α) (f g : α → Nat) :
    (l.map (fun y => f y + g y)).sum = (l.map f).sum + (l.map g).sum := by
  induction l with
  | nil => simp
  | cons x t ih => simp [ih]; omega

/-- A count is the sum of its indicator values. -/
theorem countP_eq_sum_indicator {α : Type} (l : List α) (q : α → Bool) :
    l.countP q = (l.map (fun y => if q y then 1 else 0)).sum := by
  induction l with
  | nil => simp
  | cons x t ih =>
    by_cases h : q x
    · simp [List.countP_cons, h, ih]
      omega
    · simp [List.countP_cons, h, ih]

/-- Exchanging the two summations of a double count. -/
theorem sum_countP_comm {α β : Type} (l1 : List α) (l2 : List β)
    (q : α → β → Bool) :
    (l1.map (fun x => l2.countP (fun y => q x y))).sum
      = (l2.map (fun y => l1.countP (fun x => q x y))).sum := by
  induction l1 with
  | nil => simp
  | cons x t ih =>
    simp only [List.map_cons, List.sum_cons, ih]
    have hcons : (l2.map (fun y => List.countP (fun x => q x y) (x :: t))).sum
        = (l2.map (fun y => List.countP (fun x => q x y) t
            + (if q x y then 1 else 0))).sum := by
      apply congrArg
      apply List.map_congr_left
      intro y _
      rw [List.countP_cons]
    rw [hcons, sum_map_add, ← countP_eq_sum_indicator]
    have heta : List.countP (fun y => q x y) l2 = List.countP (q x) l2 := rfl
    rw [heta]
    omega

/-- The code's nested loop counts exactly the strictly-greater face pairs. -/
theorem countGreater_eq_pairCountGt (l1 l2 : List Int) :
    countGreater l1 l2 = pairCountGt l1 l2 := by
  rw [countGreater_eq_sum, pairCountGt, ← List.countP_eq_length_filter,
    countP_product]

/-- The reversed loop count equals the strictly-smaller pair count over the
original pair list. -/
theorem countGreater_swap (l1 l2 : List Int) :
    countGreater l2 l1
      = (l1.product l2).countP (fun p => decide (p.1 < p.2)) := by
  rw [countGreater_eq_sum, countP_product, sum_countP_comm]

/-- Trichotomy of pair counts: greater, smaller and equal pairs partition
the pair list. -/
theorem trichotomy_countP (l : List (Int × Int)) :
    l.countP (fun p => decide (p.2 < p.1))
      + l.countP (fun p => decide (p.1 < p.2))
      + l.countP (fun p => decide (p.1 = p.2)) = l.length := by
  induction l with
  | nil => simp
  | cons p t ih =>
    rcases lt_trichotomy p.1 p.2 with h | h | h
    · simp [List.countP_cons, h, ih, not_lt_of_lt h, ne_of_lt h]
      omega
    · simp [List.countP_cons, h, ih, lt_irrefl]
      omega
    · simp [List.countP_cons, h, ih, not_lt_of_lt h, (ne_of_lt h).symm]
      omega

/-- The two win counts and the tie count partition all face pairs. -/
theorem countGreater_add_tie (l1 l2 : List Int) :
    countGreater l1 l2 + countGreater l2 l1 + pairCountEq l1 l2
      = l1.length * l2.length := by
  have hlen : (l1.product l2).length = l1.length * l2.length :=
    List.length_product l1 l2
  rw [countGreater_eq_pairCountGt, pairCountGt, countGreater_swap,
    pairCountEq, ← List.countP_eq_length_filter, ← List.countP_eq_length_filter,
    trichotomy_countP, hlen]

/-! ### Helper lemmas: averaging loop, parser, probability bounds -/

/-- The accumulation loop of `averageWinProbability` sums the pairwise win
probabilities over the pool members not identical to `die`. -/
theorem averageTotal_eq_filter_sum (d : Dice) (pool : List Dice) :
    averageTotal d pool
      = ((pool.filter (fun e => decide (e.id ≠ d.id))).map
          (fun e => ProbabilityCalculator.calculateWinProbability d e)).sum := by
  unfold averageTotal
  suffices h : ∀ acc : ℚ,
      pool.foldl
        (fun total eachDie =>
          if d.id = eachDie.id then total
          else total + ProbabilityCalculator.calculateWinProbability d eachDie)
        acc
        = acc + ((pool.filter (fun e => decide (e.id ≠ d.id))).map
            (fun e => ProbabilityCalculator.calculateWinProbability d e)).sum by
    simpa using h 0
  induction pool with
  | nil => intro acc; simp
  | cons e t ih =>
    intro acc
    rw [List.foldl_cons, List.filter_cons]
    by_cases h : d.id = e.id
    · have hp : (decide (e.id ≠ d.id)) = false := by simp [h]
      rw [if_pos h, hp, ih]
      simp
    · have hp : (decide (e.id ≠ d.id)) = true := by
        simp
        exact fun he => h he.symm
      rw [if_neg h, hp, ih]
      simp
      ring

/-- A die the parser accepts has at least one face: the explicit guard at
game.js lines 40-41. -/
theorem parseDie_ok_faces (i : Nat) (arg : List Char) (d : Dice)
    (h : DiceParser.parseDie i arg = Except.ok d) : 1 ≤ d.faces.length := by
  unfold DiceParser.parseDie at h
  cases hm : (splitOnComma arg).mapM
      (fun face =>
        match parseIntJs (trimChars face) with
        | none => Except.error ("Invalid Die face: ".toList ++ face)
        | some num => Except.ok num) with
  | error e => rw [hm] at h; simp at h
  | ok faces =>
    rw [hm] at h
    dsimp only at h
    by_cases hl : faces.length < 1
    · rw [if_pos hl] at h; simp at h
    · rw [if_neg hl] at h
      simp at h
      have hd : d.faces = faces := by rw [← h]
      rw [hd]
      omega

/-- Pushing a pointwise property through a successful `mapM` over
`Except`. -/
theorem mapM_except_ok_forall {α β ε : Type} (f : α → Except ε β)
    (P : β → Prop) (hf : ∀ a b, f a = Except.ok b → P b) :
    ∀ (l : List α) (ys : List β), l.mapM f = Except.ok ys → ∀ y ∈ ys, P y := by
  intro l
  induction l with
  | nil =>
    intro ys h y hy
    rw [List.mapM_nil] at h
    simp [Pure.pure, Except.pure] at h
    subst h
    simp at hy
  | cons a t ih =>
    intro ys h y hy
    rw [List.mapM_cons] at h
    cases hfa : f a with
    | error e => rw [hfa] at h; simp [Bind.bind, Except.bind] at h
    | ok b =>
      rw [hfa] at h
      cases hts : t.mapM f with
      | error e => rw [hts] at h; simp [Bind.bind, Except.bind] at h
      | ok bs =>
        rw [hts] at h
        simp [Bind.bind, Except.bind, Pure.pure, Except.pure] at h
        rw [← h] at hy
        rcases List.mem_cons.1 hy with hyb | hybs
        · rw [hyb]; exact hf a b hfa
        · exact ih bs hts y hybs

/-- `calculateWinProbability` is non-negative. -/
theorem calculateWinProbability_nonneg (a b : Dice) :
    0 ≤ ProbabilityCalculator.calculateWinProbability a b := by
  unfold ProbabilityCalculator.calculateWinProbability
  positivity

/-- The win count is at most the number of face pairs. -/
theorem countGreater_le (l1 l2 : List Int) :
    countGreater l1 l2 ≤ l1.length * l2.length := by
  have h := countGreater_add_tie l1 l2
  omega

/-- `calculateWinProbability` is at most one for non-empty dice. -/
theorem calculateWinProbability_le_one (a b : Dice)
    (ha : a.faces ≠ []) (hb : b.faces ≠ []) :
    ProbabilityCalculator.calculateWinProbability a b ≤ 1 := by
  unfold ProbabilityCalculator.calculateWinProbability
  rw [div_le_one]
  · have h := countGreater_le a.faces b.faces
    have := List.length_pos.2 ha
    have := List.length_pos.2 hb
    push_cast
    rw [Dice.getFaces, Dice.getFaces, Dice.getFaceCount, Dice.getFaceCount]
    exact_mod_cast h
  · have ha1 := List.length_pos.2 ha
    have hb1 := List.length_pos.2 hb
    rw [Dice.getFaceCount, Dice.getFaceCount]
    positivity

/-- `computeResult` with a non-negative contribution lands in
`[0, rangeSize]` and agrees with the mathematical modulus. -/
theorem computeResult_bounds (s : FairRandomGenerator) (y : Int) (hy : 0 ≤ y) :
    s.computeResult y = ((s.x : Int) + y) % ((s.rangeSize : Int) + 1)
      ∧ 0 ≤ s.computeResult y ∧ s.computeResult y ≤ (s.rangeSize : Int) := by
  unfold FairRandomGenerator.computeResult
  have h0 : (0 : Int) ≤ (s.x : Int) + y := by omega
  have hb : (0 : Int) < (s.rangeSize : Int) + 1 := by omega
  rw [Int.tmod_eq_emod h0 (le_of_lt hb)]
  refine ⟨rfl, Int.emod_nonneg _ hb.ne', ?_⟩
  have := Int.emod_lt_of_pos ((s.x : Int) + y) hb
  omega

/-- The secret drawn by the constructor on range size `r` is the draw
reduced into `[0, r]`. -/
theorem make_x (H : HashFn) (rangeSize : Nat) (key : List Nat) (draw : Nat) :
    (FairRandomGenerator.make H rangeSize key draw).x = draw % (rangeSize + 1) := rfl

/-! ### The claims -/

/-- C1: for every non-negative `rangeSize`, every secret `x ∈ [0,
rangeSize]` and every contribution `y ∈ [0, rangeSize]`, `computeResult`
returns exactly `(x + y) mod (rangeSize + 1)`, and the result lies in
`[0, rangeSize]`. -/
theorem c1_combine_is_mod (H : HashFn) (rangeSize : Nat) (key : List Nat)
    (x : Nat) (y : Int) (hx : x ≤ rangeSize) (hy0 : 0 ≤ y)
    (_hy : y ≤ (rangeSize : Int)) :
    (FairRandomGenerator.make H rangeSize key x).computeResult y
        = ((x : Int) + y) % ((rangeSize : Int) + 1)
      ∧ 0 ≤ (FairRandomGenerator.make H rangeSize key x).computeResult y
      ∧ (FairRandomGenerator.make H rangeSize key x).computeResult y
          ≤ (rangeSize : Int) := by
  have h := computeResult_bounds (FairRandomGenerator.make H rangeSize key x) y hy0
  have hxx : (FairRandomGenerator.make H rangeSize key x).x = x := by
    rw [make_x]
    exact Nat.mod_eq_of_lt (by omega)
  have hrr : (FairRandomGenerator.make H rangeSize key x).rangeSize = rangeSize := rfl
  rw [hxx, hrr] at h
  exact h

/-- C1 witness: range size 2, secret 1, contribution 2. -/
theorem c1_witness :
    ((1 : Nat) ≤ 2 ∧ (0 : Int) ≤ 2 ∧ (2 : Int) ≤ (2 : Nat))
    ∧ ((FairRandomGenerator.make constHash 2 [] 1).computeResult 2
          = (((1 : Nat) : Int) + 2) % (((2 : Nat) : Int) + 1)
        ∧ 0 ≤ (FairRandomGenerator.make constHash 2 [] 1).computeResult 2
        ∧ (FairRandomGenerator.make constHash 2 [] 1).computeResult 2
            ≤ ((2 : Nat) : Int)) := by
  constructor
  · refine ⟨by omega, by omega, by omega⟩
  · have h := c1_combine_is_mod constHash 2 [] 1 2 (by omega) (by omega) (by omega)
    refine ⟨?_, h.2.1, h.2.2⟩
    rw [h.1]

/-- C2: for every generated commitment, recomputing the keyed hash from the
revealed key (`getKey`) and secret (`getX`) equals the digest returned by
`getHMAC`, and `computeHMAC` agrees with the stored digest. -/
theorem c2_commitment_roundtrip (H : HashFn) (rangeSize : Nat) (key : List Nat)
    (draw : Nat) :
    H ((FairRandomGenerator.make H rangeSize key draw).getKey)
        (encodeBE32 ((FairRandomGenerator.make H rangeSize key draw).getX))
      = (FairRandomGenerator.make H rangeSize key draw).getHMAC
    ∧ (FairRandomGenerator.make H rangeSize key draw).computeHMAC H
      = (FairRandomGenerator.make H rangeSize key draw).getHMAC :=
  ⟨rfl, rfl⟩

/-- C4 counterexample: with range size 1 (so valid contributions are 0 and
1) and secret 0, calling `computeResult` with the out-of-range contribution
2 does not fail with an `OutOfRange` error — the code has no range check —
it successfully returns `(0 + 2) % 2 = 0`. -/
theorem c4_counterexample :
    (FairRandomGenerator.make constHash 1 [] 0).computeResult 2 = 0 := by
  decide

/-- C4 amended: `computeResult` performs no validation of the counterpart
value and never fails; for every contribution `y ≥ 0` — including values
above `rangeSize` — it returns a value that still lies in `[0, rangeSize]`. -/
theorem c4_no_out_of_range_check (H : HashFn) (rangeSize : Nat)
    (key : List Nat) (draw : Nat) (y : Int) (hy : 0 ≤ y) :
    0 ≤ (FairRandomGenerator.make H rangeSize key draw).computeResult y
    ∧ (FairRandomGenerator.make H rangeSize key draw).computeResult y
        ≤ (rangeSize : Int) := by
  have h := computeResult_bounds (FairRandomGenerator.make H rangeSize key draw) y hy
  exact ⟨h.2.1, h.2.2⟩

/-- C4 witness: range size 1, contribution 5 (out of range), result in
`[0, 1]`. -/
theorem c4_witness :
    ((0 : Int) ≤ 5)
    ∧ 0 ≤ (FairRandomGenerator.make constHash 1 [] 0).computeResult 5
    ∧ (FairRandomGenerator.make constHash 1 [] 0).computeResult 5
        ≤ ((1 : Nat) : Int) := by
  refine ⟨by omega, ?_, ?_⟩
  · exact (c4_no_out_of_range_check constHash 1 [] 0 5 (by omega)).1
  · exact (c4_no_out_of_range_check constHash 1 [] 0 5 (by omega)).2

/-- C5 counterexample: constructing a generator with the negative range
size `-1` does fail, but only after `crypto.randomBytes(32)` has already
drawn the key — contradicting the claim that the failure happens before
any secret material is generated. -/
theorem c5_counterexample :
    FairRandomGenerator.init constHash (-1) [] 0
      = ([EntropyStep.genKey],
          Except.error CryptoError.randomIntMaxNotGreaterThanMin) := rfl

/-- C5 amended: for every negative range size the constructor fails (the
secure random integer draw rejects the empty range, a range error), but
only after the key has been generated; the secret value is never drawn. -/
theorem c5_negative_range_fails_after_key (H : HashFn) (rangeSize : Int)
    (key : List Nat) (draw : Nat) (h : rangeSize < 0) :
    (FairRandomGenerator.init H rangeSize key draw).1 = [EntropyStep.genKey]
    ∧ (FairRandomGenerator.init H rangeSize key draw).2
        = Except.error CryptoError.randomIntMaxNotGreaterThanMin := by
  unfold FairRandomGenerator.init
  rw [if_pos (by omega)]
  exact ⟨rfl, rfl⟩

/-- C5 witness: range size `-2`. -/
theorem c5_witness :
    ((-2 : Int) < 0)
    ∧ (FairRandomGenerator.init constHash (-2) [] 3).1 = [EntropyStep.genKey]
    ∧ (FairRandomGenerator.init constHash (-2) [] 3).2
        = Except.error CryptoError.randomIntMaxNotGreaterThanMin := by
  refine ⟨by omega, ?_, ?_⟩
  · exact (c5_negative_range_fails_after_key constHash (-2) [] 3 (by omega)).1
  · exact (c5_negative_range_fails_after_key constHash (-2) [] 3 (by omega)).2

/-- C6 counterexample: a pool holding a single die does not raise an
`InsufficientPool` error — the code has no pool-size check — it divides by
`pool.length - 1 = 0`, producing the non-finite JavaScript value modelled
by `none`. -/
theorem c6_counterexample :
    ProbabilityCalculator.averageWinProbability ⟨0, [1]⟩ [⟨0, [1]⟩] = none := by
  unfold ProbabilityCalculator.averageWinProbability jsDiv
  norm_num

/-- C6 amended: for every die and every pool with exactly one entry,
`averageWinProbability` divides by zero (`pool.length - 1 = 0`) and yields
the non-finite value modelled by `none`, instead of failing with an
`InsufficientPool` error. -/
theorem c6_single_pool_divides_by_zero (d : Dice) (pool : List Dice)
    (h : pool.length = 1) :
    ProbabilityCalculator.averageWinProbability d pool = none := by
  unfold ProbabilityCalculator.averageWinProbability jsDiv
  rw [h]
  norm_num

/-- C6 witness: a one-die pool. -/
theorem c6_witness :
    (([⟨0, [1]⟩] : List Dice).length = 1)
    ∧ ProbabilityCalculator.averageWinProbability ⟨1, [2]⟩ [⟨0, [1]⟩] = none :=
  ⟨by decide, c6_single_pool_divides_by_zero ⟨1, [2]⟩ [⟨0, [1]⟩] (by decide)⟩

/-- C3: for every pair of non-empty dice, `calculateWinProbability` equals
the number of strictly-greater face pairs divided by the product of the
face counts (ties count toward neither side), and the result lies in
`[0, 1]`. -/
theorem c3_pairwise_win_probability (a b : Dice)
    (ha : a.faces ≠ []) (hb : b.faces ≠ []) :
    ProbabilityCalculator.calculateWinProbability a b
        = (pairCountGt a.faces b.faces : ℚ)
          / ((a.faces.length * b.faces.length : Nat) : ℚ)
      ∧ 0 ≤ ProbabilityCalculator.calculateWinProbability a b
      ∧ ProbabilityCalculator.calculateWinProbability a b ≤ 1 := by
  refine ⟨?_, calculateWinProbability_nonneg a b,
    calculateWinProbability_le_one a b ha hb⟩
  unfold ProbabilityCalculator.calculateWinProbability
  rw [Dice.getFaces, Dice.getFaces, Dice.getFaceCount, Dice.getFaceCount,
    countGreater_eq_pairCountGt]

/-- C3 witness: dice `[2,1]` and `[1]`. -/
theorem c3_witness :
    (((⟨0, [2, 1]⟩ : Dice).faces ≠ []) ∧ ((⟨1, [1]⟩ : Dice).faces ≠ []))
    ∧ (ProbabilityCalculator.calculateWinProbability ⟨0, [2, 1]⟩ ⟨1, [1]⟩
          = (pairCountGt (⟨0, [2, 1]⟩ : Dice).faces (⟨1, [1]⟩ : Dice).faces : ℚ)
            / (((⟨0, [2, 1]⟩ : Dice).faces.length
                * (⟨1, [1]⟩ : Dice).faces.length : Nat) : ℚ)
        ∧ 0 ≤ ProbabilityCalculator.calculateWinProbability ⟨0, [2, 1]⟩ ⟨1, [1]⟩
        ∧ ProbabilityCalculator.calculateWinProbability ⟨0, [2, 1]⟩ ⟨1, [1]⟩ ≤ 1) :=
  ⟨⟨by decide, by decide⟩,
    c3_pairwise_win_probability ⟨0, [2, 1]⟩ ⟨1, [1]⟩ (by decide) (by decide)⟩

/-- C8: for all non-empty dice the two win probabilities sum to at most
one, the gap to one is exactly the tie fraction, and on the all-tie dice
`[1,1]` versus `[1,1]` both probabilities are zero. -/
theorem c8_win_sum_and_tie_gap :
    (∀ a b : Dice, a.faces ≠ [] → b.faces ≠ [] →
      ProbabilityCalculator.calculateWinProbability a b
          + ProbabilityCalculator.calculateWinProbability b a ≤ 1
      ∧ 1 - (ProbabilityCalculator.calculateWinProbability a b
            + ProbabilityCalculator.calculateWinProbability b a)
          = (pairCountEq a.faces b.faces : ℚ)
            / ((a.faces.length * b.faces.length : Nat) : ℚ))
    ∧ ProbabilityCalculator.calculateWinProbability ⟨0, [1, 1]⟩ ⟨1, [1, 1]⟩ = 0
    ∧ ProbabilityCalculator.calculateWinProbability ⟨1, [1, 1]⟩ ⟨0, [1, 1]⟩ = 0 := by
  refine ⟨?_, ?_, ?_⟩
  · intro a b ha hb
    have ha1 := List.length_pos.2 ha
    have hb1 := List.length_pos.2 hb
    have hTpos : (0 : ℚ) < ((a.faces.length * b.faces.length : Nat) : ℚ) := by
      have : 0 < a.faces.length * b.faces.length := Nat.mul_pos ha1 hb1
      exact_mod_cast this
    have hkey : (countGreater a.faces b.faces : ℚ)
        + (countGreater b.faces a.faces : ℚ)
        + (pairCountEq a.faces b.faces : ℚ)
        = ((a.faces.length * b.faces.length : Nat) : ℚ) := by
      exact_mod_cast congrArg (fun n : Nat => (n : ℚ))
        (countGreater_add_tie a.faces b.faces)
    have hPab : ProbabilityCalculator.calculateWinProbability a b
        = (countGreater a.faces b.faces : ℚ)
          / ((a.faces.length * b.faces.length : Nat) : ℚ) := rfl
    have hPba : ProbabilityCalculator.calculateWinProbability b a
        = (countGreater b.faces a.faces : ℚ)
          / ((a.faces.length * b.faces.length : Nat) : ℚ) := by
      unfold ProbabilityCalculator.calculateWinProbability
      rw [Dice.getFaces, Dice.getFaces, Dice.getFaceCount, Dice.getFaceCount,
        Nat.mul_comm]
    have heq : (0 : ℚ) ≤ (pairCountEq a.faces b.faces : ℚ) := by positivity
    constructor
    · rw [hPab, hPba, div_add_div_same, div_le_one hTpos]
      linarith [hkey]
    · rw [hPab, hPba, div_add_div_same]
      rw [eq_div_iff hTpos.ne', sub_mul, one_mul, div_mul_cancel₀ _ hTpos.ne']
      linarith [hkey]
  · unfold ProbabilityCalculator.calculateWinProbability countGreater
      Dice.getFaces Dice.getFaceCount
    norm_num
  · unfold ProbabilityCalculator.calculateWinProbability countGreater
      Dice.getFaces Dice.getFaceCount
    norm_num

/-- C8 witness: dice `[2]` and `[1]`. -/
theorem c8_witness :
    (((⟨0, [2]⟩ : Dice).faces ≠ []) ∧ ((⟨1, [1]⟩ : Dice).faces ≠ []))
    ∧ ProbabilityCalculator.calculateWinProbability ⟨0, [2]⟩ ⟨1, [1]⟩
        + ProbabilityCalculator.calculateWinProbability ⟨1, [1]⟩ ⟨0, [2]⟩ ≤ 1 :=
  ⟨⟨by decide, by decide⟩,
    (c8_win_sum_and_tie_gap.1 ⟨0, [2]⟩ ⟨1, [1]⟩ (by decide) (by decide)).1⟩

/-- The pool splits into the entries identical to `d` and the rest. -/
theorem filter_ne_length_add (d : Dice) (pool : List Dice) :
    (pool.filter (fun e => decide (e.id ≠ d.id))).length
      + pool.countP (fun e => decide (e.id = d.id)) = pool.length := by
  rw [← List.countP_eq_length_filter]
  induction pool with
  | nil => simp
  | cons e t ih =>
    rw [List.countP_cons, List.countP_cons, List.length_cons]
    by_cases h : e.id = d.id
    · have hp : (decide (e.id ≠ d.id)) = false := by simp [h]
      have hq : (decide (e.id = d.id)) = true := by simp [h]
      rw [hp, hq, if_neg (by simp : ¬(false = true)), if_pos rfl]
      omega
    · have hp : (decide (e.id ≠ d.id)) = true := by simp [h]
      have hq : (decide (e.id = d.id)) = false := by simp [h]
      rw [hp, hq, if_pos rfl, if_neg (by simp : ¬(false = true))]
      omega

/-- C7 counterexample: for the die `[2]` (id 2) against the two-die pool
`[[1], [1]]` (ids 0, 1 — the die itself is not in the pool), the code sums
both pairwise probabilities (1 each) but divides by `pool.length - 1 = 1`,
returning 2; the claimed mean over the non-identical members is 1. -/
theorem c7_counterexample :
    ProbabilityCalculator.averageWinProbability ⟨2, [2]⟩ [⟨0, [1]⟩, ⟨1, [1]⟩]
        = some 2
    ∧ specAverageWinProbability ⟨2, [2]⟩ [⟨0, [1]⟩, ⟨1, [1]⟩] = 1 := by
  constructor
  · unfold ProbabilityCalculator.averageWinProbability jsDiv averageTotal
      ProbabilityCalculator.calculateWinProbability countGreater
      Dice.getFaces Dice.getFaceCount
    norm_num
  · unfold specAverageWinProbability
      ProbabilityCalculator.calculateWinProbability countGreater
      Dice.getFaces Dice.getFaceCount
    norm_num

/-- C7 amended: `averageWinProbability` divides the sum of the pairwise
win probabilities over the non-identical pool members by `pool.length - 1`,
not by the number of such members; the two agree — the result is the
claimed arithmetic mean — exactly when the die occurs exactly once (by
identity) in the pool. -/
theorem c7_average_is_mean_when_die_occurs_once (d : Dice) (pool : List Dice)
    (h2 : 2 ≤ pool.length)
    (hone : pool.countP (fun e => decide (e.id = d.id)) = 1) :
    ProbabilityCalculator.averageWinProbability d pool
      = some (specAverageWinProbability d pool) := by
  unfold ProbabilityCalculator.averageWinProbability jsDiv
  have hlen : (pool.filter (fun e => decide (e.id ≠ d.id))).length
      = pool.length - 1 := by
    have := filter_ne_length_add d pool
    omega
  have hden : ((pool.length : ℚ) - 1) ≠ 0 := by
    have h2q : (2 : ℚ) ≤ (pool.length : ℚ) := by exact_mod_cast h2
    intro hc
    rw [sub_eq_zero] at hc
    rw [hc] at h2q
    norm_num at h2q
  rw [if_neg hden]
  unfold specAverageWinProbability
  rw [averageTotal_eq_filter_sum, hlen]
  have hcast : ((pool.length - 1 : Nat) : ℚ) = (pool.length : ℚ) - 1 := by
    have h1 : 1 ≤ pool.length := by omega
    push_cast [Nat.cast_sub h1]
    ring
  rw [hcast]

/-- C7 witness: die `[1]` (id 0) in the pool `[[1], [2]]` (ids 0, 1). -/
theorem c7_witness :
    (2 ≤ ([⟨0, [1]⟩, ⟨1, [2]⟩] : List Dice).length
      ∧ ([⟨0, [1]⟩, ⟨1, [2]⟩] : List Dice).countP
          (fun e => decide (e.id = (⟨0, [1]⟩ : Dice).id)) = 1)
    ∧ ProbabilityCalculator.averageWinProbability ⟨0, [1]⟩ [⟨0, [1]⟩, ⟨1, [2]⟩]
        = some (specAverageWinProbability ⟨0, [1]⟩ [⟨0, [1]⟩, ⟨1, [2]⟩]) :=
  ⟨⟨by decide, by decide⟩,
    c7_average_is_mean_when_die_occurs_once ⟨0, [1]⟩ [⟨0, [1]⟩, ⟨1, [2]⟩]
      (by decide) (by decide)⟩

/-- C9 counterexample: `parseDice` accepts the arguments `-1,2 3 4` and
constructs a die whose first face is the negative integer `-1` — the
parser checks only that each face parses to an integer, never that it is
non-negative. -/
theorem c9_counterexample :
    DiceParser.parseDice [['-', '1', ',', '2'], ['3'], ['4']]
        = Except.ok [⟨0, [-1, 2]⟩, ⟨1, [3]⟩, ⟨2, [4]⟩]
    ∧ ¬(∀ d ∈ [(⟨0, [-1, 2]⟩ : Dice), ⟨1, [3]⟩, ⟨2, [4]⟩],
          ∀ f ∈ d.faces, 0 ≤ f) := by
  constructor
  · rfl
  · decide

/-- C9 amended: every die `parseDice` successfully constructs has at least
one face, and every face is an integer; faces may however be negative —
non-negativity is not validated. -/
theorem c9_parsed_dice_have_faces (args : List (List Char)) (dice : List Dice)
    (h : DiceParser.parseDice args = Except.ok dice) :
    ∀ d ∈ dice, 1 ≤ d.faces.length := by
  unfold DiceParser.parseDice at h
  by_cases hl : args.length < 3
  · rw [if_pos hl] at h
    simp at h
  · rw [if_neg hl] at h
    exact mapM_except_ok_forall (fun p => DiceParser.parseDie p.1 p.2)
      (fun d => 1 ≤ d.faces.length)
      (fun p d hp => parseDie_ok_faces p.1 p.2 d hp) args.enum dice h

/-- C9 witness: the parsed dice of `1 2 3` all have a face. -/
theorem c9_witness :
    DiceParser.parseDice [['1'], ['2'], ['3']]
        = Except.ok [⟨0, [1]⟩, ⟨1, [2]⟩, ⟨2, [3]⟩]
    ∧ 1 ≤ (Dice.mk 1 [2]).faces.length :=
  ⟨rfl,
    c9_parsed_dice_have_faces [['1'], ['2'], ['3']]
      [⟨0, [1]⟩, ⟨1, [2]⟩, ⟨2, [3]⟩] rfl ⟨1, [2]⟩ (by decide)⟩

/-- C10: a fair roll over a non-empty die, performed with `max = faceCount
- 1` and any validated user contribution `y ∈ [0, max]`, returns a valid
index into the die's face list, so `performThrows` never indexes out of
bounds. -/
theorem c10_fair_roll_is_valid_index (H : HashFn) (key : List Nat)
    (draw : Nat) (die : Dice) (y : Int) (hne : die.faces ≠ [])
    (hy0 : 0 ≤ y) (_hy : y ≤ (die.getFaceCount : Int) - 1) :
    0 ≤ Game.performFairRoll H (die.getFaceCount - 1) key draw y
    ∧ Game.performFairRoll H (die.getFaceCount - 1) key draw y
        < (die.getFaceCount : Int)
    ∧ (die.faces.get?
        (Game.performFairRoll H (die.getFaceCount - 1) key draw y).toNat).isSome := by
  have hlen : 1 ≤ die.getFaceCount := by
    rw [Dice.getFaceCount]
    exact List.length_pos.2 hne
  have h := computeResult_bounds
    (FairRandomGenerator.make H (die.getFaceCount - 1) key draw) y hy0
  have hr : ((FairRandomGenerator.make H (die.getFaceCount - 1) key draw).rangeSize
      : Int) = (die.getFaceCount : Int) - 1 := by
    have hval : (FairRandomGenerator.make H (die.getFaceCount - 1) key draw).rangeSize
        = die.getFaceCount - 1 := rfl
    rw [hval]
    omega
  rw [hr] at h
  have hfc : die.getFaceCount = die.faces.length := rfl
  unfold Game.performFairRoll
  refine ⟨h.2.1, by omega, ?_⟩
  have hlt : ((FairRandomGenerator.make H (die.getFaceCount - 1) key draw).computeResult
      y).toNat < die.faces.length := by
    have h1 := h.2.1
    have h2 := h.2.2
    omega
  exact (List.get?_eq_get hlt) ▸ rfl

/-- C10 witness: the die `[1, 2]`, user contribution 1. -/
theorem c10_witness :
    (((⟨0, [1, 2]⟩ : Dice).faces ≠ []) ∧ (0 : Int) ≤ 1
      ∧ (1 : Int) ≤ ((⟨0, [1, 2]⟩ : Dice).getFaceCount : Int) - 1)
    ∧ 0 ≤ Game.performFairRoll constHash ((⟨0, [1, 2]⟩ : Dice).getFaceCount - 1) [] 3 1
    ∧ Game.performFairRoll constHash ((⟨0, [1, 2]⟩ : Dice).getFaceCount - 1) [] 3 1
        < (((⟨0, [1, 2]⟩ : Dice).getFaceCount : Nat) : Int)
    ∧ ((⟨0, [1, 2]⟩ : Dice).faces.get?
        (Game.performFairRoll constHash ((⟨0, [1, 2]⟩ : Dice).getFaceCount - 1)
          [] 3 1).toNat).isSome := by
  refine ⟨⟨by decide, by omega, by decide⟩, ?_⟩
  exact c10_fair_roll_is_valid_index constHash [] 3 ⟨0, [1, 2]⟩ 1
    (by decide) (by omega) (by decide)
